import Mathlib

/-!
Shallow embedding of the collection-management and query-routing layer of
`src/python/chroma_server.py` (the NovelAssist vector-database service), and
proofs of its specified properties.

Modelling conventions:
- Vector components are carried opaquely by this layer (never computed on),
  so they are embedded as `Int` (named `Scalar`).
- JSON metadata mappings are embedded as association lists `List (String × String)`;
  only presence/emptiness and pass-through identity matter to this layer.
- Python truthiness of an `Optional[List]` / `Optional[Dict]` field
  (`if x:`) is `false` for both `None` and the empty list/dict; helper
  `listTruthy` embeds this.
- Each FastAPI handler is embedded as a pure function threading the shared
  cache (`collections` dict), a model of the persisted chroma store state,
  and an explicit trace of store-client calls issued.
- Every handler body runs inside `try: ... except Exception as e: raise
  HTTPException(500, str(e))`; this is embedded by a body returning
  `Except Err α` and a wrapper `wrapErrors` mapping every raised error
  (including an `HTTPException(400, ...)` raised by the body itself, which
  that catch-all also catches) to an HTTP 500 response whose detail is
  `str(e)`.
-/

namespace ChromaServer

/-- Vector components, carried opaquely by this layer. -/
abbrev Scalar := Int

/-- JSON string-keyed mapping (metadata / where-filter), as an association list. -/
abbrev Metadata := List (String × String)

/-- Python truthiness of an `Optional` list-like value: `None` and `[]`/`{}` are falsy. -/
def listTruthy {α : Type} : Option (List α) → Bool
  | none => false
  | some l => !l.isEmpty

/-- Request body of POST `/embed` (`EmbeddingItem` in the source). -/
structure EmbeddingItem where
  id : String
  text : String
  metadata : Metadata := []
  embedding : Option (List Scalar) := none
deriving DecidableEq, Repr

/-- Request body of POST `/embed_batch` (`EmbeddingBatchItem` in the source). -/
structure EmbeddingBatchItem where
  ids : List String
  texts : List String
  metadatas : Option (List Metadata) := none
  embeddings : Option (List (List Scalar)) := none
deriving DecidableEq, Repr

/-- Request body of POST `/query` (`QueryItem` in the source). -/
structure QueryItem where
  query_text : String
  n_results : Nat := 5
  whereFilter : Option Metadata := none
  embedding : Option (List Scalar) := none
deriving DecidableEq, Repr

/-- Request body of POST `/delete` (`DeleteItem` in the source). -/
structure DeleteItem where
  ids : Option (List String) := none
  whereFilter : Option Metadata := none
deriving DecidableEq, Repr

/-- A collection handle as cached in the module-level `collections` dict:
its name and the embedding function bound when the entry was created.
Embedding functions are carried as opaque string labels. -/
structure CollEntry where
  name : String
  ef : String
deriving DecidableEq, Repr

/-- Label of `default_ef` (the `DefaultEmbeddingFunction`). -/
def default_ef : String := "default_ef"

/-- The module-level `collections` cache: a dict from name to handle. -/
abbrev Cache := List (String × CollEntry)

/-- Model of the persisted chroma store: the set of collection names that
exist on disk. Record-level contents are outside this layer's invariants. -/
structure StoreState where
  existing : List String
deriving DecidableEq, Repr

/-- The `collection.add` call shapes issued by the ingestion handlers:
with or without an explicit `embeddings=` argument. -/
inductive AddCall where
  | withoutEmbeddings (ids : List String) (documents : List String) (metadatas : List Metadata)
  | withEmbeddings (ids : List String) (embeddings : List (List Scalar))
      (documents : List String) (metadatas : List Metadata)
deriving DecidableEq, Repr

/-- The `collection.query` call shapes issued by the query handler.
The `whereArg` field is the `where=` keyword argument: `none` when the
handler omitted it from `query_params`. -/
inductive StoreQueryCall where
  | byVector (query_embeddings : List (List Scalar)) (n_results : Nat) (whereArg : Option Metadata)
  | byText (query_texts : List String) (n_results : Nat) (whereArg : Option Metadata)
deriving DecidableEq, Repr

/-- Every chroma-client / collection call a handler can issue, in order. -/
inductive StoreCall where
  | getCollection (name ef : String)
  | createCollection (name ef : String)
  | add (name : String) (call : AddCall)
  | query (name : String) (call : StoreQueryCall)
  | deleteIds (name : String) (ids : List String)
  | deleteWhere (name : String) (w : Metadata)
  | deleteCollection (name : String)
deriving DecidableEq, Repr

/-- Dict lookup on the cache. -/
def cacheLookup (c : Cache) (n : String) : Option CollEntry :=
  match c with
  | [] => none
  | (k, v) :: t => if k = n then some v else cacheLookup t n

/-- Dict deletion (`del collections[name]`) on the cache. -/
def cacheRemove (c : Cache) (n : String) : Cache :=
  match c with
  | [] => []
  | (k, v) :: t => if k = n then cacheRemove t n else (k, v) :: cacheRemove t n

/-- `get_collection(collection_name, embedding_function=None)` (source lines
133–153): if the name is cached return the cached handle with no store
call; otherwise call `chroma_client.get_collection` (succeeds iff the name
is persisted) and on its exception fall back to
`chroma_client.create_collection`; either way insert the handle into the
cache. The embedding function actually used is
`embedding_function or default_ef`. Returns the handle, the new cache, the
new store state, and the trace of store calls issued. -/
def get_collection (collection_name : String) (embedding_function : Option String)
    (cache : Cache) (store : StoreState) :
    CollEntry × Cache × StoreState × List StoreCall :=
  match cacheLookup cache collection_name with
  | some e => (e, cache, store, [])
  | none =>
    let efUsed := embedding_function.getD default_ef
    let e : CollEntry := ⟨collection_name, efUsed⟩
    if collection_name ∈ store.existing then
      (e, cache ++ [(collection_name, e)], store,
        [.getCollection collection_name efUsed])
    else
      (e, cache ++ [(collection_name, e)],
        ⟨store.existing ++ [collection_name]⟩,
        [.getCollection collection_name efUsed, .createCollection collection_name efUsed])

/-- An exception raised inside a handler body: an `HTTPException(code, detail)`
raised by the handler itself, or an exception from the store client. -/
inductive Err where
  | http (code : Nat) (detail : String)
  | store (msg : String)
deriving DecidableEq, Repr

/-- `str(e)` for a raised exception: Starlette's `HTTPException.__str__` is
`f"{status_code}: {detail}"`; a plain store exception is its message. -/
def errStr : Err → String
  | .http code detail => toString code ++ ": " ++ detail
  | .store msg => msg

/-- Outcome of a handler as seen by the HTTP caller. -/
inductive HResult (α : Type) where
  | ok (val : α)
  | httpError (code : Nat) (detail : String)
deriving DecidableEq, Repr

/-- The `try: ... except Exception as e: raise HTTPException(500, str(e))`
frame wrapping every handler body. Note it catches an inner
`HTTPException(400, ...)` as well, re-raising it with status 500. -/
def wrapErrors {α : Type} : Except Err α → HResult α
  | .ok a => .ok a
  | .error e => .httpError 500 (errStr e)

/-- Success body of POST `/embed`: `{"status": "success", "message":
f"已将文本向量化并添加到{collection_name}"}`, carried structurally. -/
inductive EmbedResp where
  | added (collection_name : String)
deriving DecidableEq, Repr

/-- Success body of POST `/embed_batch`: `{"status": "success", "message":
f"已批量添加{count}个向量到{collection_name}"}`, carried structurally. -/
inductive BatchResp where
  | added (count : Nat) (collection_name : String)
deriving DecidableEq, Repr

/-- `collection.add` argument shape built by `create_embedding` (source
lines 172–185): without `embeddings=` when `not item.embedding`
(i.e. `None` or the empty list), with `embeddings=[item.embedding]`
otherwise. -/
def buildAddCall (item : EmbeddingItem) : AddCall :=
  match item.embedding with
  | none => .withoutEmbeddings [item.id] [item.text] [item.metadata]
  | some e =>
    if e.isEmpty then .withoutEmbeddings [item.id] [item.text] [item.metadata]
    else .withEmbeddings [item.id] [e] [item.text] [item.metadata]

/-- POST `/embed` handler `create_embedding` (source lines 166–190). -/
def create_embedding (item : EmbeddingItem) (collection_name : String)
    (cache : Cache) (store : StoreState) :
    HResult EmbedResp × Cache × StoreState × List StoreCall :=
  let r := get_collection collection_name none cache store
  (.ok (.added collection_name), r.2.1, r.2.2.1,
    r.2.2.2 ++ [.add r.1.name (buildAddCall item)])

/-- `metadatas = item.metadatas if item.metadatas else [{}] * len(item.ids)`
(source line 203): the given list passes through unchanged whenever it is
truthy (present and non-empty), with no length check against `ids`. -/
def resolveMetadatas (metadatas : Option (List Metadata)) (nIds : Nat) : List Metadata :=
  match metadatas with
  | none => List.replicate nIds []
  | some ms => if ms.isEmpty then List.replicate nIds [] else ms

/-- Body of POST `/embed_batch` handler `create_embeddings_batch` (source
lines 193–224), before the catch-all frame: resolve the collection first,
then check `len(ids) == len(texts)`, default `metadatas`, and either add
without embeddings (when `not item.embeddings`) or check
`len(embeddings) == len(ids)` and add with them. -/
def create_embeddings_batch_body (item : EmbeddingBatchItem) (collection_name : String)
    (cache : Cache) (store : StoreState) :
    Except Err BatchResp × Cache × StoreState × List StoreCall :=
  let r := get_collection collection_name none cache store
  let coll := r.1
  let cache1 := r.2.1
  let store1 := r.2.2.1
  let tr := r.2.2.2
  if item.ids.length ≠ item.texts.length then
    (.error (.http 400 "ids和texts的长度必须一致"), cache1, store1, tr)
  else
    let metadatas := resolveMetadatas item.metadatas item.ids.length
    match item.embeddings with
    | none =>
      (.ok (.added item.ids.length collection_name), cache1, store1,
        tr ++ [.add coll.name (.withoutEmbeddings item.ids item.texts metadatas)])
    | some es =>
      if es.isEmpty then
        (.ok (.added item.ids.length collection_name), cache1, store1,
          tr ++ [.add coll.name (.withoutEmbeddings item.ids item.texts metadatas)])
      else if es.length ≠ item.ids.length then
        (.error (.http 400 "embeddings和ids的长度必须一致"), cache1, store1, tr)
      else
        (.ok (.added item.ids.length collection_name), cache1, store1,
          tr ++ [.add coll.name (.withEmbeddings item.ids es item.texts metadatas)])

/-- POST `/embed_batch` handler with its catch-all error frame. -/
def create_embeddings_batch (item : EmbeddingBatchItem) (collection_name : String)
    (cache : Cache) (store : StoreState) :
    HResult BatchResp × Cache × StoreState × List StoreCall :=
  let r := create_embeddings_batch_body item collection_name cache store
  (wrapErrors r.1, r.2)

/-- The `where=` entry of `query_params` (source lines 236–242): included
only when `query.where` is truthy (present and non-empty). -/
def whereParam (w : Option Metadata) : Option Metadata :=
  match w with
  | none => none
  | some m => if m.isEmpty then none else some m

/-- The store query issued by `query_similar` (source lines 244–254):
`query_embeddings=[query.embedding]` when `query.embedding` is truthy,
else `query_texts=[query.query_text]`; `n_results` and the optional
`where` pass through. -/
def buildQueryCall (q : QueryItem) : StoreQueryCall :=
  match q.embedding with
  | none => .byText [q.query_text] q.n_results (whereParam q.whereFilter)
  | some v =>
    if v.isEmpty then .byText [q.query_text] q.n_results (whereParam q.whereFilter)
    else .byVector [v] q.n_results (whereParam q.whereFilter)

/-- The positional store query response as the handler reads it: the
`[0]`-indexed inner lists (one query vector was submitted, so the handler
only ever reads index `[0]` of each outer array). A component that chroma
returned as `None`, or whose `[0]` inner list is empty, is `none` here
(the handler's guard `results["X"] and results["X"][0]` treats both the
same). Individual entries of `documents[0]`, `metadatas[0]` and
`distances[0]` may themselves be `None`, hence the inner `Option`s. -/
structure StoreQueryResult where
  ids0 : List String
  documents0 : Option (List (Option String)) := none
  metadatas0 : Option (List (Option Metadata)) := none
  distances0 : Option (List (Option Scalar)) := none
deriving DecidableEq, Repr

/-- One element of the reshaped `results` list: `metadata` is `some []`
(the empty dict `{}`) in the default branch and may be `none` only when
the store's parallel metadata entry was itself `None`. -/
structure QueryResultItem where
  id : String
  text : Option String
  metadata : Option Metadata
  distance : Option Scalar
deriving DecidableEq, Repr

/-- Reading `results["X"][0][i]` under the guard
`results["X"] and results["X"][0]`: when the component is falsy the default
is used; otherwise the entry at `i` is read, and an out-of-range `i` is a
Python `IndexError` (outer `none`). -/
def entryAtD {α : Type} (component : Option (List α)) (i : Nat) (dflt : α) : Option α :=
  match component with
  | none => some dflt
  | some l => if l.isEmpty then some dflt else l[i]?

/-- The item built at loop index `i` (source lines 261–266); `none` models
an `IndexError` escaping the loop. -/
def buildItem (r : StoreQueryResult) (i : Nat) : Option QueryResultItem := do
  let id ← r.ids0[i]?
  let t ← entryAtD r.documents0 i none
  let m ← entryAtD r.metadatas0 i (some [])
  let d ← entryAtD r.distances0 i none
  pure ⟨id, t, m, d⟩

/-- The reshaping loop `for i in range(len(results["ids"][0]))` (source
lines 257–267). -/
def processResults (r : StoreQueryResult) : Option (List QueryResultItem) :=
  (List.range r.ids0.length).mapM (buildItem r)

/-- Success body of POST `/query`: `{"status": "success", "results": ...,
"count": len(processed_results)}`. -/
structure QueryResp where
  results : List QueryResultItem
  count : Nat
deriving DecidableEq, Repr

/-- Body of POST `/query` handler `query_similar` (source lines 229–273),
before the catch-all frame. The store's positional response to the issued
query is an input (`storeResp`); the call shape issued is recorded in the
trace. -/
def query_similar_body (q : QueryItem) (collection_name : String)
    (cache : Cache) (store : StoreState) (storeResp : StoreQueryResult) :
    Except Err QueryResp × Cache × StoreState × List StoreCall :=
  let r := get_collection collection_name none cache store
  let tr := r.2.2.2 ++ [.query r.1.name (buildQueryCall q)]
  match processResults storeResp with
  | some items => (.ok ⟨items, items.length⟩, r.2.1, r.2.2.1, tr)
  | none => (.error (.store "IndexError"), r.2.1, r.2.2.1, tr)

/-- POST `/query` handler with its catch-all error frame. -/
def query_similar (q : QueryItem) (collection_name : String)
    (cache : Cache) (store : StoreState) (storeResp : StoreQueryResult) :
    HResult QueryResp × Cache × StoreState × List StoreCall :=
  let r := query_similar_body q collection_name cache store storeResp
  (wrapErrors r.1, r.2)

/-- Success body of POST `/delete`: by ids the message is
`f"已从{collection_name}中删除{count}个向量"` with `count = len(ids)`; by
where-filter the message carries no count. -/
inductive DeleteResp where
  | byIds (count : Nat) (collection_name : String)
  | byWhere (collection_name : String)
deriving DecidableEq, Repr

/-- Body of POST `/delete` handler `delete_embeddings` (source lines
278–295), before the catch-all frame: delete by ids when `delete_item.ids`
is truthy (the where-filter is then never consulted), else by where-filter
when that is truthy, else raise `HTTPException(400, ...)`. -/
def delete_embeddings_body (delete_item : DeleteItem) (collection_name : String)
    (cache : Cache) (store : StoreState) :
    Except Err DeleteResp × Cache × StoreState × List StoreCall :=
  let r := get_collection collection_name none cache store
  let coll := r.1
  let cache1 := r.2.1
  let store1 := r.2.2.1
  let tr := r.2.2.2
  match delete_item.ids with
  | some ids =>
    if ids.isEmpty then
      match delete_item.whereFilter with
      | some w =>
        if w.isEmpty then
          (.error (.http 400 "必须提供ids或where参数"), cache1, store1, tr)
        else
          (.ok (.byWhere collection_name), cache1, store1, tr ++ [.deleteWhere coll.name w])
      | none => (.error (.http 400 "必须提供ids或where参数"), cache1, store1, tr)
    else
      (.ok (.byIds ids.length collection_name), cache1, store1, tr ++ [.deleteIds coll.name ids])
  | none =>
    match delete_item.whereFilter with
    | some w =>
      if w.isEmpty then
        (.error (.http 400 "必须提供ids或where参数"), cache1, store1, tr)
      else
        (.ok (.byWhere collection_name), cache1, store1, tr ++ [.deleteWhere coll.name w])
    | none => (.error (.http 400 "必须提供ids或where参数"), cache1, store1, tr)

/-- POST `/delete` handler with its catch-all error frame. -/
def delete_embeddings (delete_item : DeleteItem) (collection_name : String)
    (cache : Cache) (store : StoreState) :
    HResult DeleteResp × Cache × StoreState × List StoreCall :=
  let r := delete_embeddings_body delete_item collection_name cache store
  (wrapErrors r.1, r.2)

/-- Success body of DELETE `/collection/{collection_name}`. -/
inductive DropResp where
  | dropped (collection_name : String)
deriving DecidableEq, Repr

/-- DELETE `/collection/{collection_name}` handler `delete_collection`
(source lines 300–315): `chroma_client.delete_collection(name)` raises when
no such persisted collection exists (surfaced as a 500 by the catch-all),
and only on its success is the cache entry, if any, deleted. -/
def delete_collection (collection_name : String)
    (cache : Cache) (store : StoreState) :
    HResult DropResp × Cache × StoreState × List StoreCall :=
  if collection_name ∈ store.existing then
    (.ok (.dropped collection_name), cacheRemove cache collection_name,
      ⟨store.existing.erase collection_name⟩, [.deleteCollection collection_name])
  else
    (.httpError 500 ("Collection " ++ collection_name ++ " does not exist."),
      cache, store, [.deleteCollection collection_name])

/-- Whether a store call is a `collection.add` (a record-level mutation). -/
def StoreCall.isAdd : StoreCall → Bool
  | .add _ _ => true
  | _ => false

/-- The `n_results=` argument carried by an issued store query. -/
def StoreQueryCall.nResultsOf : StoreQueryCall → Nat
  | .byVector _ n _ => n
  | .byText _ n _ => n

/-- The `where=` argument carried by an issued store query (`none` when the
handler omitted it). -/
def StoreQueryCall.whereArgOf : StoreQueryCall → Option Metadata
  | .byVector _ _ w => w
  | .byText _ _ w => w

/-- A positional response component is well formed against the id list:
if present, it is either empty or index-parallel to the ids. -/
def wfComponent {α : Type} (component : Option (List α)) (n : Nat) : Prop :=
  ∀ l, component = some l → l = [] ∨ l.length = n

/-- Modelled from the spec's words, as the refinement target for the
reshaping claim: the item at position `i` has the `i`-th returned id;
its text is the parallel documents entry or null when documents are
absent; its metadata is the parallel metadatas entry or the empty mapping
when metadatas are absent; its distance is the parallel distances entry or
null when distances are absent. -/
def specItem (r : StoreQueryResult) (i : Nat) : QueryResultItem where
  id := r.ids0.getD i ""
  text :=
    match r.documents0 with
    | some ds => ds.getD i none
    | none => none
  metadata :=
    match r.metadatas0 with
    | some ms => ms.getD i (some [])
    | none => some []
  distance :=
    match r.distances0 with
    | some ds => ds.getD i none
    | none => none

/-- Modelled from the spec's words: one `QueryResultItem` per returned id,
in the store's returned order. -/
def specReshape (r : StoreQueryResult) : List QueryResultItem :=
  (List.range r.ids0.length).map (specItem r)

/-! ## Helper lemmas -/

theorem cacheLookup_append_of_none (c : Cache) (n : String) (e : CollEntry)
    (h : cacheLookup c n = none) : cacheLookup (c ++ [(n, e)]) n = some e := by
  induction c with
  | nil => simp [cacheLookup]
  | cons p t ih =>
    obtain ⟨k, v⟩ := p
    simp only [List.cons_append, cacheLookup] at h ⊢
    by_cases hk : k = n
    · rw [if_pos hk] at h
      exact absurd h (by simp)
    · rw [if_neg hk] at h ⊢
      exact ih h

theorem cacheLookup_cacheRemove_self (c : Cache) (n : String) :
    cacheLookup (cacheRemove c n) n = none := by
  induction c with
  | nil => rfl
  | cons p t ih =>
    obtain ⟨k, v⟩ := p
    by_cases hk : k = n
    · simpa [cacheRemove, hk] using ih
    · simp [cacheRemove, cacheLookup, hk, ih]

theorem cacheLookup_cacheRemove_other (c : Cache) (n m : String) (h : m ≠ n) :
    cacheLookup (cacheRemove c n) m = cacheLookup c m := by
  induction c with
  | nil => rfl
  | cons p t ih =>
    obtain ⟨k, v⟩ := p
    by_cases hk : k = n
    · subst hk
      have hkm : ¬k = m := fun hh => h hh.symm
      simp [cacheRemove, cacheLookup, hkm, ih]
    · simp [cacheRemove, cacheLookup, hk, ih]

theorem get_collection_trace_no_add (name : String) (ef : Option String)
    (cache : Cache) (store : StoreState) :
    ∀ c ∈ (get_collection name ef cache store).2.2.2, c.isAdd = false := by
  unfold get_collection
  cases h : cacheLookup cache name with
  | some e => simp
  | none =>
    by_cases hex : name ∈ store.existing
    · simp [hex, StoreCall.isAdd]
    · simp [hex, StoreCall.isAdd]

/-! ## Claim theorems -/

/-- C4: `resolve` (`get_collection`) is idempotent per name: a cached name
returns the cached handle unchanged with no store call and an unchanged
cache and store (the embedding-function argument is ignored, as it does
not influence the result); and after any first resolve of a name, a second
resolve of that name — with any embedding-function argument — returns
exactly the handle, cache and store produced by the first resolve and
issues no store call, so two sequential resolves create at most one
underlying collection. -/
theorem c4_resolve_idempotent :
    (∀ (name : String) (ef : Option String) (cache : Cache) (store : StoreState) (e : CollEntry),
      cacheLookup cache name = some e →
      get_collection name ef cache store = (e, cache, store, [])) ∧
    (∀ (name : String) (ef1 ef2 : Option String) (cache : Cache) (store : StoreState),
      get_collection name ef2 (get_collection name ef1 cache store).2.1
          (get_collection name ef1 cache store).2.2.1 =
        ((get_collection name ef1 cache store).1,
         (get_collection name ef1 cache store).2.1,
         (get_collection name ef1 cache store).2.2.1, [])) := by
  constructor
  · intro name ef cache store e h
    unfold get_collection
    rw [h]
  · intro name ef1 ef2 cache store
    unfold get_collection
    cases h : cacheLookup cache name with
    | some e => simp [h]
    | none =>
      by_cases hex : name ∈ store.existing
      · simp only [hex, if_true]
        rw [cacheLookup_append_of_none cache name _ h]
      · simp only [hex, if_false]
        rw [cacheLookup_append_of_none cache name _ h]

/-- Witness for C4 at a concrete cached entry. -/
theorem c4_resolve_idempotent_witness :
    get_collection "col" (some "other_ef") [("col", ⟨"col", "default_ef"⟩)] ⟨["col"]⟩ =
      (⟨"col", "default_ef"⟩, [("col", ⟨"col", "default_ef"⟩)], ⟨["col"]⟩, []) :=
  c4_resolve_idempotent.1 "col" (some "other_ef")
    [("col", ⟨"col", "default_ef"⟩)] ⟨["col"]⟩ ⟨"col", "default_ef"⟩ (by decide)

/-- C1 counterexample: on a fresh state, a batch request with
`len(ids) != len(texts)` still causes `create_embeddings_batch` to issue
the get-or-create resolution of the target collection — including a
`create_collection` store mutation — before failing, because the handler
resolves the collection before checking the length invariants; the failure
is then reported (as a 500 via the catch-all frame), contradicting the
claim that no store call of any kind precedes the validation failure. -/
theorem c1_counterexample_store_call_before_validation :
    (create_embeddings_batch ⟨["a"], [], none, none⟩ "default" [] ⟨[]⟩).1
      = .httpError 500 "400: ids和texts的长度必须一致" ∧
    (create_embeddings_batch ⟨["a"], [], none, none⟩ "default" [] ⟨[]⟩).2.2.2
      = [.getCollection "default" "default_ef", .createCollection "default" "default_ef"] := by
  constructor
  · rfl
  · rfl

/-- C1 (amended): for every batch request with `len(ids) != len(texts)` and
every cache/store state, `create_embeddings_batch` fails (the raised
length-mismatch error reaches the caller) and issues no `collection.add`
call — no record-level store mutation occurs; however the store calls it
does issue before failing are exactly those of the get-or-create
resolution of the target collection, which runs before the length check. -/
theorem c1_batch_length_mismatch_fails_no_add (item : EmbeddingBatchItem)
    (collection_name : String) (cache : Cache) (store : StoreState)
    (h : item.ids.length ≠ item.texts.length) :
    (create_embeddings_batch item collection_name cache store).1
      = .httpError 500 "400: ids和texts的长度必须一致" ∧
    (create_embeddings_batch item collection_name cache store).2.2.2
      = (get_collection collection_name none cache store).2.2.2 ∧
    ∀ c ∈ (create_embeddings_batch item collection_name cache store).2.2.2,
      c.isAdd = false := by
  have hbody : create_embeddings_batch_body item collection_name cache store
      = (.error (.http 400 "ids和texts的长度必须一致"),
         (get_collection collection_name none cache store).2.1,
         (get_collection collection_name none cache store).2.2.1,
         (get_collection collection_name none cache store).2.2.2) := by
    unfold create_embeddings_batch_body
    rw [if_pos h]
  refine ⟨?_, ?_, ?_⟩
  · unfold create_embeddings_batch
    rw [hbody]
    rfl
  · unfold create_embeddings_batch
    rw [hbody]
  · unfold create_embeddings_batch
    rw [hbody]
    exact get_collection_trace_no_add collection_name none cache store

/-- Witness for C1's amended theorem at a concrete mismatched request on a
warm cache (cache hit: no store call at all is issued). -/
theorem c1_batch_length_mismatch_witness :
    (create_embeddings_batch ⟨["a"], [], none, none⟩ "c1"
        [("c1", ⟨"c1", "default_ef"⟩)] ⟨["c1"]⟩).1
      = .httpError 500 "400: ids和texts的长度必须一致" :=
  (c1_batch_length_mismatch_fails_no_add ⟨["a"], [], none, none⟩ "c1"
    [("c1", ⟨"c1", "default_ef"⟩)] ⟨["c1"]⟩ (by decide)).1

/-- C2 (code bug): the validation failures are raised inside the handler as
`HTTPException(400, ...)` — the code's own 4xx intent — but each handler's
catch-all `except Exception` frame intercepts that very exception and
re-raises it as `HTTPException(500, str(e))`, so the caller observes a 5xx
status for a caller-fault validation error: shown for the batch
length-mismatch and for a delete request carrying neither ids nor a
where-filter. -/
theorem c2_validation_reported_500 :
    (create_embeddings_batch_body ⟨["a"], [], none, none⟩ "c2"
        [("c2", ⟨"c2", "default_ef"⟩)] ⟨["c2"]⟩).1
      = .error (.http 400 "ids和texts的长度必须一致") ∧
    (create_embeddings_batch ⟨["a"], [], none, none⟩ "c2"
        [("c2", ⟨"c2", "default_ef"⟩)] ⟨["c2"]⟩).1
      = .httpError 500 "400: ids和texts的长度必须一致" ∧
    (delete_embeddings_body ⟨none, none⟩ "c2"
        [("c2", ⟨"c2", "default_ef"⟩)] ⟨["c2"]⟩).1
      = .error (.http 400 "必须提供ids或where参数") ∧
    (delete_embeddings ⟨none, none⟩ "c2"
        [("c2", ⟨"c2", "default_ef"⟩)] ⟨["c2"]⟩).1
      = .httpError 500 "400: 必须提供ids或where参数" := by
  refine ⟨rfl, rfl, rfl, rfl⟩

/-- C3 counterexample: a batch request whose `metadatas` is present with
`len(metadatas) = 1 ≠ 2 = len(ids)` does not fail with a validation error:
the handler succeeds and passes the mismatched metadata list to
`collection.add` unchanged. -/
theorem c3_counterexample_metadatas_mismatch_accepted :
    (create_embeddings_batch ⟨["a", "b"], ["ta", "tb"], some [[("k", "v")]], none⟩ "c3"
        [("c3", ⟨"c3", "default_ef"⟩)] ⟨["c3"]⟩).1
      = .ok (.added 2 "c3") ∧
    (create_embeddings_batch ⟨["a", "b"], ["ta", "tb"], some [[("k", "v")]], none⟩ "c3"
        [("c3", ⟨"c3", "default_ef"⟩)] ⟨["c3"]⟩).2.2.2
      = [.add "c3" (.withoutEmbeddings ["a", "b"] ["ta", "tb"] [[("k", "v")]])] := by
  refine ⟨rfl, rfl⟩

/-- C3 (amended): `ingestBatch` performs no length validation on
`metadatas` at all: whenever `metadatas` is present and non-empty (and the
`ids`/`texts` lengths agree, with no explicit embeddings), the request
succeeds and the metadata list is forwarded to the store's `add` unchanged,
even when `len(metadatas) != len(ids)`; the empty-mapping default applies
only when `metadatas` is absent or empty. -/
theorem c3_metadatas_length_not_validated (item : EmbeddingBatchItem)
    (collection_name : String) (cache : Cache) (store : StoreState)
    (ms : List Metadata) (hm : item.metadatas = some ms) (hne : ms ≠ [])
    (hlen : item.ids.length = item.texts.length) (hemb : item.embeddings = none) :
    resolveMetadatas item.metadatas item.ids.length = ms ∧
    (create_embeddings_batch item collection_name cache store).1
      = .ok (.added item.ids.length collection_name) ∧
    (create_embeddings_batch item collection_name cache store).2.2.2
      = (get_collection collection_name none cache store).2.2.2 ++
          [.add (get_collection collection_name none cache store).1.name
            (.withoutEmbeddings item.ids item.texts ms)] := by
  have hmsne : ms.isEmpty = false := by
    cases ms with
    | nil => exact absurd rfl hne
    | cons a t => rfl
  have hres : resolveMetadatas item.metadatas item.ids.length = ms := by
    rw [hm]
    simp [resolveMetadatas, hmsne]
  have hbody : create_embeddings_batch_body item collection_name cache store
      = (.ok (.added item.ids.length collection_name),
         (get_collection collection_name none cache store).2.1,
         (get_collection collection_name none cache store).2.2.1,
         (get_collection collection_name none cache store).2.2.2 ++
           [.add (get_collection collection_name none cache store).1.name
             (.withoutEmbeddings item.ids item.texts ms)]) := by
    unfold create_embeddings_batch_body
    rw [if_neg (by simp [hlen]), hemb]
    simp only [hres]
  refine ⟨hres, ?_, ?_⟩
  · simp [create_embeddings_batch, hbody, wrapErrors]
  · simp [create_embeddings_batch, hbody]

/-- Witness for C3's amended theorem at the mismatched concrete input. -/
theorem c3_metadatas_length_not_validated_witness :
    (create_embeddings_batch ⟨["a", "b"], ["ta", "tb"], some [[("k", "v")]], none⟩ "c3w"
        [("c3w", ⟨"c3w", "default_ef"⟩)] ⟨["c3w"]⟩).1
      = .ok (.added 2 "c3w") :=
  (c3_metadatas_length_not_validated ⟨["a", "b"], ["ta", "tb"], some [[("k", "v")]], none⟩
    "c3w" [("c3w", ⟨"c3w", "default_ef"⟩)] ⟨["c3w"]⟩
    [[("k", "v")]] rfl (by decide) (by decide) rfl).2.1

/-- C6 counterexample: a query request whose vector is present but equal
to the empty list is not dispatched as a vector-similarity query with that
vector — the handler's truthiness test sends it down the text-query path
instead. -/
theorem c6_counterexample_empty_vector_not_vector_query :
    buildQueryCall ⟨"t", 5, none, some []⟩ = .byText ["t"] 5 none ∧
    buildQueryCall ⟨"t", 5, none, some []⟩ ≠ .byVector [[]] 5 none := by
  refine ⟨rfl, by decide⟩

/-- C6 (amended): if the request's vector is present and non-empty the
store is issued a vector-similarity query with exactly that single vector
(the query text is not used); if the vector is absent or empty the store
is issued a text query with the request's query text; in both cases the
store call carries `n_results` (which defaults to 5) as the requested
match cap, and the where-filter is passed through unmodified when present
and non-empty while an empty or absent where-filter puts no filter in the
call. -/
theorem c6_query_dispatch :
    (∀ (q : QueryItem) (v : List Scalar), q.embedding = some v → v ≠ [] →
      buildQueryCall q = .byVector [v] q.n_results (whereParam q.whereFilter)) ∧
    (∀ q : QueryItem, q.embedding = none ∨ q.embedding = some [] →
      buildQueryCall q = .byText [q.query_text] q.n_results (whereParam q.whereFilter)) ∧
    (∀ q : QueryItem, (buildQueryCall q).nResultsOf = q.n_results) ∧
    (∀ s : String, ({ query_text := s } : QueryItem).n_results = 5) ∧
    (∀ (q : QueryItem) (m : Metadata), q.whereFilter = some m → m ≠ [] →
      (buildQueryCall q).whereArgOf = some m) ∧
    (∀ q : QueryItem, q.whereFilter = none ∨ q.whereFilter = some [] →
      (buildQueryCall q).whereArgOf = none) := by
  have hwhere : ∀ (w : Option Metadata) (m : Metadata), w = some m → m ≠ [] →
      whereParam w = some m := by
    intro w m hw hne
    subst hw
    have : m.isEmpty = false := by
      cases m with
      | nil => exact absurd rfl hne
      | cons a t => rfl
    simp [whereParam, this]
  have hwhereNone : ∀ w : Option Metadata, w = none ∨ w = some [] →
      whereParam w = none := by
    intro w hw
    rcases hw with hw | hw <;> subst hw <;> rfl
  refine ⟨?_, ?_, ?_, ?_, ?_, ?_⟩
  · intro q v hv hne
    have : v.isEmpty = false := by
      cases v with
      | nil => exact absurd rfl hne
      | cons a t => rfl
    simp [buildQueryCall, hv, this]
  · intro q hq
    rcases hq with hq | hq <;> simp [buildQueryCall, hq]
  · intro q
    unfold buildQueryCall
    cases q.embedding with
    | none => rfl
    | some v =>
      by_cases hv : v.isEmpty <;> simp [hv, StoreQueryCall.nResultsOf]
  · intro s
    rfl
  · intro q m hm hne
    rw [show (buildQueryCall q).whereArgOf = whereParam q.whereFilter by
      unfold buildQueryCall
      cases q.embedding with
      | none => rfl
      | some v => by_cases hv : v.isEmpty <;> simp [hv, StoreQueryCall.whereArgOf]]
    exact hwhere _ m hm hne
  · intro q hq
    rw [show (buildQueryCall q).whereArgOf = whereParam q.whereFilter by
      unfold buildQueryCall
      cases q.embedding with
      | none => rfl
      | some v => by_cases hv : v.isEmpty <;> simp [hv, StoreQueryCall.whereArgOf]]
    exact hwhereNone _ hq

/-- Witness for C6's amended theorem: a concrete non-empty vector with a
non-empty where-filter is dispatched as a single-vector store query. -/
theorem c6_query_dispatch_witness :
    buildQueryCall ⟨"t", 3, some [("k", "v")], some [2]⟩
      = .byVector [[2]] 3 (some [("k", "v")]) := by
  have h := c6_query_dispatch.1 ⟨"t", 3, some [("k", "v")], some [2]⟩ [2] rfl (by decide)
  simpa [whereParam] using h

/-- C7 counterexample: a delete request with no ids and a where-filter that
is present but empty (`where = {}`) is not executed as a deletion by
predicate — the handler's truthiness test rejects the request as missing a
selection mode (surfaced as a 500 by the catch-all frame). -/
theorem c7_counterexample_empty_predicate_rejected :
    (delete_embeddings ⟨none, some []⟩ "c7" [("c7", ⟨"c7", "default_ef"⟩)] ⟨["c7"]⟩).1
      = .httpError 500 "400: 必须提供ids或where参数" ∧
    (delete_embeddings ⟨none, some []⟩ "c7" [("c7", ⟨"c7", "default_ef"⟩)] ⟨["c7"]⟩).2.2.2
      = [] := by
  refine ⟨rfl, rfl⟩

/-- C7 (amended): when `ids` is non-empty, `delete_embeddings` deletes by
the id list — the where-filter is ignored even if also given — and reports
a count equal to the length of the id list without consulting the store
about whether each id existed; when `ids` is absent or empty and the
where-filter is present **and non-empty**, deletion is by that filter and
success is reported without a count (an empty where-filter is instead
rejected as a missing selection mode). -/
theorem c7_delete_dispatch :
    (∀ (d : DeleteItem) (cn : String) (cache : Cache) (store : StoreState) (ids : List String),
      d.ids = some ids → ids ≠ [] →
      (delete_embeddings d cn cache store).1 = .ok (.byIds ids.length cn) ∧
      (delete_embeddings d cn cache store).2.2.2
        = (get_collection cn none cache store).2.2.2 ++
            [.deleteIds (get_collection cn none cache store).1.name ids]) ∧
    (∀ (d : DeleteItem) (cn : String) (cache : Cache) (store : StoreState) (w : Metadata),
      d.ids = none ∨ d.ids = some [] → d.whereFilter = some w → w ≠ [] →
      (delete_embeddings d cn cache store).1 = .ok (.byWhere cn) ∧
      (delete_embeddings d cn cache store).2.2.2
        = (get_collection cn none cache store).2.2.2 ++
            [.deleteWhere (get_collection cn none cache store).1.name w]) := by
  constructor
  · intro d cn cache store ids hids hne
    have hidsne : ids.isEmpty = false := by
      cases ids with
      | nil => exact absurd rfl hne
      | cons a t => rfl
    constructor <;>
      simp [delete_embeddings, delete_embeddings_body, hids, hidsne, wrapErrors]
  · intro d cn cache store w hids hw hne
    have hwne : w.isEmpty = false := by
      cases w with
      | nil => exact absurd rfl hne
      | cons a t => rfl
    rcases hids with hids | hids <;>
      constructor <;>
        simp [delete_embeddings, delete_embeddings_body, hids, hw, hwne, wrapErrors]

/-- Witness for C7's amended theorem: deleting with both ids and a
where-filter given uses the id list, reports its length, and issues only a
delete-by-ids store call. -/
theorem c7_delete_dispatch_witness :
    (delete_embeddings ⟨some ["a", "b"], some [("k", "v")]⟩ "c7w"
        [("c7w", ⟨"c7w", "default_ef"⟩)] ⟨["c7w"]⟩).1
      = .ok (.byIds 2 "c7w") :=
  (c7_delete_dispatch.1 ⟨some ["a", "b"], some [("k", "v")]⟩ "c7w"
    [("c7w", ⟨"c7w", "default_ef"⟩)] ⟨["c7w"]⟩ ["a", "b"] rfl (by decide)).1

/-- C8 (confirmed): `delete_collection` is fail-safe with respect to the
cache: when the store's delete succeeds (the name exists in the store) the
cache entry for that name, if any, is removed while every other name's
cache entry is unchanged; when the store call raises (the name does not
exist), the response is a 500 and the whole cache — the entry for that
name and every other — is left untouched. -/
theorem c8_drop_collection_fail_safe :
    (∀ (cn : String) (cache : Cache) (store : StoreState),
      cn ∈ store.existing →
      (delete_collection cn cache store).1 = .ok (.dropped cn) ∧
      cacheLookup (delete_collection cn cache store).2.1 cn = none ∧
      ∀ n, n ≠ cn →
        cacheLookup (delete_collection cn cache store).2.1 n = cacheLookup cache n) ∧
    (∀ (cn : String) (cache : Cache) (store : StoreState),
      cn ∉ store.existing →
      (delete_collection cn cache store).1
        = .httpError 500 ("Collection " ++ cn ++ " does not exist.") ∧
      (delete_collection cn cache store).2.1 = cache) := by
  constructor
  · intro cn cache store hex
    refine ⟨?_, ?_, ?_⟩
    · simp [delete_collection, hex]
    · simp [delete_collection, hex, cacheLookup_cacheRemove_self]
    · intro n hn
      simp [delete_collection, hex, cacheLookup_cacheRemove_other cache cn n hn]
  · intro cn cache store hex
    constructor <;> simp [delete_collection, hex]

/-- Witness for C8 at concrete states: a successful drop evicts exactly
the dropped name's entry; a failing drop (name absent from the store)
leaves the cache as it was. -/
theorem c8_drop_collection_fail_safe_witness :
    cacheLookup (delete_collection "x" [("x", ⟨"x", "default_ef"⟩), ("y", ⟨"y", "default_ef"⟩)]
        ⟨["x", "y"]⟩).2.1 "x" = none ∧
    (delete_collection "x" [("y", ⟨"y", "default_ef"⟩)] ⟨["y"]⟩).2.1
      = [("y", ⟨"y", "default_ef"⟩)] :=
  ⟨(c8_drop_collection_fail_safe.1 "x"
      [("x", ⟨"x", "default_ef"⟩), ("y", ⟨"y", "default_ef"⟩)] ⟨["x", "y"]⟩ (by decide)).2.1,
   (c8_drop_collection_fail_safe.2 "x" [("y", ⟨"y", "default_ef"⟩)] ⟨["y"]⟩ (by decide)).2⟩

/-- C10 (confirmed): an explicitly supplied empty vector is treated the
same as an absent one: a single-record ingest whose embedding is the empty
list takes the derive-from-text path (the `add` call carries no explicit
embeddings, identical to the absent-embedding call), and a query whose
vector is the empty list is dispatched as a text query with the request's
query text, identical to the absent-vector dispatch. -/
theorem c10_empty_vector_as_absent :
    (∀ item : EmbeddingItem, item.embedding = some [] →
      buildAddCall item = .withoutEmbeddings [item.id] [item.text] [item.metadata] ∧
      buildAddCall item = buildAddCall { item with embedding := none }) ∧
    (∀ q : QueryItem, q.embedding = some [] →
      buildQueryCall q = .byText [q.query_text] q.n_results (whereParam q.whereFilter) ∧
      buildQueryCall q = buildQueryCall { q with embedding := none }) := by
  constructor
  · intro item h
    constructor <;> simp [buildAddCall, h]
  · intro q h
    constructor <;> simp [buildQueryCall, h]

/-- Witness for C10 at a concrete record and query with empty vectors. -/
theorem c10_empty_vector_as_absent_witness :
    buildAddCall ⟨"i", "t", [("k", "v")], some []⟩
      = .withoutEmbeddings ["i"] ["t"] [[("k", "v")]] ∧
    buildQueryCall ⟨"qt", 5, none, some []⟩ = .byText ["qt"] 5 (whereParam none) :=
  ⟨(c10_empty_vector_as_absent.1 ⟨"i", "t", [("k", "v")], some []⟩ rfl).1,
   (c10_empty_vector_as_absent.2 ⟨"qt", 5, none, some []⟩ rfl).1⟩

theorem mapM_eq_some_map {α β : Type} (f : α → Option β) (g : α → β)
    (l : List α) (h : ∀ x ∈ l, f x = some (g x)) :
    l.mapM f = some (l.map g) := by
  induction l with
  | nil => rfl
  | cons a t ih =>
    have ha : f a = some (g a) := h a (by simp)
    have ht : ∀ x ∈ t, f x = some (g x) := fun x hx => h x (by simp [hx])
    rw [List.mapM_cons, ha, ih ht]
    rfl

theorem entryAtD_eq_some_getD {α : Type} (l : List α) (i : Nat) (dflt : α) (n : Nat)
    (hln : l = [] ∨ l.length = n) (hi : i < n) :
    entryAtD (some l) i dflt = some (l.getD i dflt) := by
  rcases hln with h | h
  · subst h
    simp [entryAtD]
  · have hil : i < l.length := by rw [h]; exact hi
    have hne : l.isEmpty = false := by
      cases l with
      | nil => simp at hil
      | cons a t => rfl
    simp only [entryAtD, hne, Bool.false_eq_true, if_false]
    rw [List.getElem?_eq_getElem hil, List.getD_eq_getElem l dflt hil]

theorem buildItem_eq_specItem (r : StoreQueryResult) (i : Nat)
    (hi : i < r.ids0.length)
    (hd : wfComponent r.documents0 r.ids0.length)
    (hm : wfComponent r.metadatas0 r.ids0.length)
    (hs : wfComponent r.distances0 r.ids0.length) :
    buildItem r i = some (specItem r i) := by
  have hid : r.ids0[i]? = some (r.ids0.getD i "") := by
    rw [List.getElem?_eq_getElem hi, List.getD_eq_getElem r.ids0 "" hi]
  have hdoc : entryAtD r.documents0 i none = some (specItem r i).text := by
    cases h : r.documents0 with
    | none => simp [entryAtD, specItem, h]
    | some l =>
      rw [entryAtD_eq_some_getD l i none r.ids0.length (hd l h) hi]
      simp [specItem, h]
  have hmet : entryAtD r.metadatas0 i (some []) = some (specItem r i).metadata := by
    cases h : r.metadatas0 with
    | none => simp [entryAtD, specItem, h]
    | some l =>
      rw [entryAtD_eq_some_getD l i (some []) r.ids0.length (hm l h) hi]
      simp [specItem, h]
  have hdis : entryAtD r.distances0 i none = some (specItem r i).distance := by
    cases h : r.distances0 with
    | none => simp [entryAtD, specItem, h]
    | some l =>
      rw [entryAtD_eq_some_getD l i none r.ids0.length (hs l h) hi]
      simp [specItem, h]
  unfold buildItem
  rw [hid, hdoc, hmet, hdis]
  rfl

/-- C5 (confirmed): for every well-formed positional store query response
(each present component index-parallel to the returned ids), the handler's
reshaping produces exactly one `QueryResultItem` per returned id, in the
store's returned order — the item at position `i` carries the `i`-th id,
the parallel documents entry as its text or null when documents are
absent, the parallel metadatas entry or the empty mapping when metadatas
are absent, and the parallel distances entry or null when distances are
absent — and the handler's response carries these items with a count equal
to their number. -/
theorem c5_query_reshaping (r : StoreQueryResult)
    (hd : wfComponent r.documents0 r.ids0.length)
    (hm : wfComponent r.metadatas0 r.ids0.length)
    (hs : wfComponent r.distances0 r.ids0.length) :
    processResults r = some (specReshape r) ∧
    (specReshape r).length = r.ids0.length ∧
    (∀ i, i < r.ids0.length →
      (specReshape r).getD i ⟨"", none, none, none⟩ = specItem r i ∧
      (specItem r i).id = r.ids0.getD i "") ∧
    (∀ (q : QueryItem) (cn : String) (cache : Cache) (store : StoreState),
      (query_similar q cn cache store r).1
        = .ok ⟨specReshape r, (specReshape r).length⟩) := by
  have hmain : processResults r = some (specReshape r) := by
    unfold processResults specReshape
    exact mapM_eq_some_map (buildItem r) (specItem r) (List.range r.ids0.length)
      (fun i hix => buildItem_eq_specItem r i (List.mem_range.mp hix) hd hm hs)
  refine ⟨hmain, by simp [specReshape], ?_, ?_⟩
  · intro i hi
    refine ⟨?_, rfl⟩
    have hlt : i < (specReshape r).length := by simpa [specReshape] using hi
    rw [List.getD_eq_getElem _ _ hlt]
    simp [specReshape]
  · intro q cn cache store
    simp [query_similar, query_similar_body, hmain, wrapErrors]

/-- Witness for C5 at a concrete two-hit response with metadatas absent. -/
theorem c5_query_reshaping_witness :
    processResults ⟨["a", "b"], some [some "ta", none], none, some [some 1, some 2]⟩
      = some [⟨"a", some "ta", some [], some 1⟩, ⟨"b", none, some [], some 2⟩] :=
  ((c5_query_reshaping ⟨["a", "b"], some [some "ta", none], none, some [some 1, some 2]⟩
    (fun l hl => Or.inr (by cases hl; rfl))
    (fun l hl => Option.noConfusion hl)
    (fun l hl => Or.inr (by cases hl; rfl))).1).trans (by decide)

end ChromaServer
